import Mathlib

/-!
Verification development for the hourly resampling and anomaly-detection
pipeline of the RayFeildDataExperiment repository.

The embedded code lives in two places of the source tree:
  * src/tester.py        -- Flask variant: train_model, predict_anomalies,
                            generate_summary and the upload route's cleaning,
                            resampling and score-storage steps;
  * src/unnamed/part_000 -- batch script variants of the same pipeline.

Modelling conventions, chosen to stay faithful to the Python/pandas code
while remaining executable in Lean:

  * Finite float values are modelled as rationals.  The IEEE special values
    NaN and the two infinities, which the code produces through pandas
    aggregations on empty data and through division by zero at
    src/tester.py line 210, are modelled explicitly by the `PFloat` type,
    whose arithmetic and comparison operations follow IEEE-754 semantics
    (NaN propagates; any ordered comparison involving NaN is false;
    `NaN == 0` is false).
  * Timestamps are timezone-naive date-times; we model them linearly as
    natural-number minute counts.  The calendar date of a timestamp is its
    day index `t / 1440`; the enclosing hour (the resample("1H") group key)
    is `t / 60`.  strftime formatting is modelled by rendering those
    components, which preserves exactly the distinctions the code's format
    strings make (date-only for part_000's str[:10], date-hour-minute for
    tester.py's "%Y-%m-%d %H:%M").
  * `Series.std()` in pandas is the sample standard deviation, the
    non-negative square root of the sample variance.  The square root of a
    rational is irrational in general, so a fitted model is characterised
    relationally: `IsTrainedModel xs M` states that `M` is exactly the
    value train_model (src/tester.py lines 37-45) returns on the hourly
    outputs `xs` (mean of `xs`, and a std whose square is the sample
    variance of `xs`; NaN for fewer than two rows, as pandas produces).
-/

namespace RayField

/-- IEEE-style scalar: a finite rational, an infinity, or NaN.  This is the
value domain of the pandas float columns manipulated by the source. -/
inductive PFloat where
  | fin (q : ℚ)
  | inf
  | ninf
  | nan
deriving DecidableEq, Repr

/-- IEEE subtraction on `PFloat` (NaN propagates; opposite infinities give
NaN). -/
def pfSub : PFloat → PFloat → PFloat
  | .nan, _ => .nan
  | _, .nan => .nan
  | .fin a, .fin b => .fin (a - b)
  | .fin _, .inf => .ninf
  | .fin _, .ninf => .inf
  | .inf, .fin _ => .inf
  | .inf, .inf => .nan
  | .inf, .ninf => .inf
  | .ninf, .fin _ => .ninf
  | .ninf, .inf => .ninf
  | .ninf, .ninf => .nan

/-- IEEE division on `PFloat`.  Division of a finite value by zero follows
numpy: `0/0` is NaN and `x/0` for nonzero `x` is a signed infinity (our
model has a single zero, so the sign of the quotient is the sign of the
dividend). -/
def pfDiv : PFloat → PFloat → PFloat
  | .nan, _ => .nan
  | _, .nan => .nan
  | .fin a, .fin b =>
      if b = 0 then (if a = 0 then .nan else if 0 < a then .inf else .ninf)
      else .fin (a / b)
  | .fin _, .inf => .fin 0
  | .fin _, .ninf => .fin 0
  | .inf, .fin b => if 0 ≤ b then .inf else .ninf
  | .ninf, .fin b => if 0 ≤ b then .ninf else .inf
  | .inf, .inf => .nan
  | .inf, .ninf => .nan
  | .ninf, .inf => .nan
  | .ninf, .ninf => .nan

/-- IEEE absolute value on `PFloat`. -/
def pfAbs : PFloat → PFloat
  | .fin a => .fin |a|
  | .inf => .inf
  | .ninf => .inf
  | .nan => .nan

/-- IEEE ordered comparison `v > t` against a finite threshold `t`; false
whenever `v` is NaN (`np.abs(z) > threshold` on a NaN z-score is False). -/
def pfGtQ : PFloat → ℚ → Bool
  | .fin a, t => decide (t < a)
  | .inf, _ => true
  | .ninf, _ => false
  | .nan, _ => false

/-- IEEE equality test against zero (the `std_output == 0` guard of
src/tester.py line 55); false on NaN and on the infinities. -/
def pfEq0 : PFloat → Bool
  | .fin a => decide (a = 0)
  | _ => false

/-- Finiteness test: true exactly on finite values. -/
def PFloat.isFinite : PFloat → Bool
  | .fin _ => true
  | _ => false

/-- Arithmetic mean of a list of rationals (meaningful for nonempty lists;
used only on nonempty groups below unless wrapped by `pandasMean`). -/
def listMean (xs : List ℚ) : ℚ := xs.sum / (xs.length : ℚ)

/-- pandas `Series.mean()`: NaN on an empty column, otherwise the
arithmetic mean. -/
def pandasMean (xs : List ℚ) : PFloat :=
  if xs.isEmpty then .nan else .fin (listMean xs)

/-- pandas `Series.max()`: NaN on an empty column, otherwise the maximum. -/
def pandasMax (xs : List ℚ) : PFloat :=
  match xs with
  | [] => .nan
  | a :: rest => .fin (rest.foldl (fun m x => max m x) a)

/-- Sample variance with denominator `n - 1`, the quantity whose square
root pandas `Series.std()` returns.  Only used for lists of length at
least two; `IsPandasStd` handles the shorter cases. -/
def sampleVar (xs : List ℚ) : ℚ :=
  (xs.map (fun x => (x - listMean xs) ^ 2)).sum / ((xs.length : ℚ) - 1)

/-- Characterisation of pandas `Series.std()` (sample standard deviation,
ddof = 1): NaN when the column has fewer than two rows, otherwise the
non-negative square root of the sample variance.  Stated relationally
because that square root is irrational in general. -/
def IsPandasStd (xs : List ℚ) (s : PFloat) : Prop :=
  if xs.length < 2 then s = .nan
  else ∃ q : ℚ, s = .fin q ∧ 0 ≤ q ∧ q ^ 2 = sampleVar xs

/-- The model dictionary returned by train_model (src/tester.py lines
37-45): the mean and sample standard deviation of the `output_kwh`
column. -/
structure ZModel where
  mean : PFloat
  std : PFloat
deriving DecidableEq, Repr

/-- `IsTrainedModel xs M` holds exactly when `M` is the value train_model
(src/tester.py lines 37-45) returns on the hourly outputs `xs`:
`mean = df.output_kwh.mean()` and `std = df.output_kwh.std()`. -/
def IsTrainedModel (xs : List ℚ) (M : ZModel) : Prop :=
  M.mean = pandasMean xs ∧ IsPandasStd xs M.std

/-- The default `threshold` argument of predict_anomalies
(src/tester.py line 47). -/
def defaultThreshold : ℚ := 3

/-- The z-score expression `(df.output_kwh - mean) / std` of
src/tester.py lines 58 and 210, evaluated on one output value with IEEE
semantics. -/
def zscoreOf (M : ZModel) (x : ℚ) : PFloat :=
  pfDiv (pfSub (.fin x) M.mean) M.std

/-- predict_anomalies (src/tester.py lines 47-61): if `std == 0` every row
is labelled not-anomalous; otherwise a row is anomalous when the absolute
z-score strictly exceeds the threshold. -/
def predictAnomalies (M : ZModel) (outputs : List ℚ) (threshold : ℚ) : List Bool :=
  if pfEq0 M.std then outputs.map (fun _ => false)
  else outputs.map (fun x => pfGtQ (pfAbs (zscoreOf M x)) threshold)

/-- The z-score column stored by the upload route after labelling
(src/tester.py line 210): `(output_kwh - mean) / std`, computed
unconditionally, with no zero-variance guard. -/
def storedScores (M : ZModel) (outputs : List ℚ) : List PFloat :=
  outputs.map (fun x => zscoreOf M x)

/-- Hour index (resample("1H") group key) of a minute-count timestamp. -/
def hourOf (t : ℕ) : ℕ := t / 60

/-- Day index (calendar date) of a minute-count timestamp; this is what
the "%Y-%m-%d" part of the format strings distinguishes. -/
def dayOf (t : ℕ) : ℕ := t / 1440

/-- Rendering of strftime("%Y-%m-%d"): the calendar date alone
(part_000, `.astype(str).str[:10]`). -/
def fmtDate (t : ℕ) : String := toString (dayOf t)

/-- Rendering of strftime("%Y-%m-%d %H:%M") (src/tester.py line 66): the
calendar date together with hour and minute. -/
def fmtDateHM (t : ℕ) : String :=
  toString (dayOf t) ++ " " ++ toString (t % 1440 / 60) ++ ":" ++ toString (t % 60)

/-- State of the raw `Timestamp` cell of one CSV row: missing, present but
unparsable (pd.to_datetime with errors="coerce" yields NaT), or parsed. -/
inductive RawTs where
  | null
  | bad
  | ok (t : ℕ)
deriving DecidableEq, Repr

/-- One raw CSV row: the `Timestamp` cell, the `SolarGeneration` cell
(none models a NaN cell), and the optional numeric covariate columns
(air temperature, relative humidity, wind speed), each possibly NaN. -/
structure RawRow where
  ts : RawTs
  output : Option ℚ
  covs : List (Option ℚ)
deriving DecidableEq, Repr

/-- A row that survived cleaning: parsed date, non-null output, covariates
passed through untouched. -/
structure CleanRow where
  date : ℕ
  output : ℚ
  covs : List (Option ℚ)
deriving DecidableEq, Repr

/-- First cleaning pass, `df.dropna(subset=["SolarGeneration",
"Timestamp"])` (src/tester.py line 185): drop rows whose output or raw
timestamp cell is missing. -/
def dropNullRows (rows : List RawRow) : List RawRow :=
  rows.filter (fun r =>
    (match r.ts with | .null => false | _ => true) && r.output.isSome)

/-- Parsing plus the second dropna (src/tester.py lines 186-189):
`pd.to_datetime(errors="coerce")` turns an unparsable timestamp into NaT
and the subsequent `dropna(subset=["output_kwh", "date"])` removes it. -/
def parseRow (r : RawRow) : Option CleanRow :=
  match r.ts, r.output with
  | .ok t, some y => some ⟨t, y, r.covs⟩
  | _, _ => none

/-- A raw row that the cleaning steps retain. -/
def rowValid (r : RawRow) : Bool := (parseRow r).isSome

/-- The whole cleaning stage of the upload route (src/tester.py lines
185-189) and of the part_000 scripts (lines 22-24 and 55-57): both dropna
passes composed.  The intervening `sort_values("date")` does not affect
the hourly groups (grouping and the arithmetic mean are
permutation-invariant), so it is absorbed here. -/
def cleanRows (rows : List RawRow) : List CleanRow :=
  (dropNullRows rows).filterMap parseRow

/-- One aggregated hour: `date` is the hour start in minutes (the
resample("1H") index value), `output` the mean of the hour's outputs,
`covs` the per-column means of the hour's covariates (none models a NaN
mean, arising when the column is entirely NaN inside the hour). -/
structure Bucket where
  date : ℕ
  output : ℚ
  covs : List (Option ℚ)
deriving DecidableEq, Repr

/-- Insert a key into an ascending list, keeping it ascending (helper for
the resample index construction). -/
def insertKey (h : ℕ) : List ℕ → List ℕ
  | [] => [h]
  | a :: tl => if h ≤ a then h :: a :: tl else a :: insertKey h tl

/-- Ascending insertion sort on hour keys. -/
def sortKeys : List ℕ → List ℕ
  | [] => []
  | a :: tl => insertKey a (sortKeys tl)

/-- The distinct hour keys present in the cleaned data, ascending.  pandas
resample("1H") emits every hour of the spanned range, but the hours with
no rows get an all-NaN row which the `.dropna()` right after the resample
removes, so only the hours listed here can survive. -/
def hourKeys (rs : List CleanRow) : List ℕ :=
  sortKeys ((rs.map (fun r => hourOf r.date)).dedup)

/-- The cleaned rows falling inside one hour group. -/
def rowsInHour (rs : List CleanRow) (h : ℕ) : List CleanRow :=
  rs.filter (fun r => hourOf r.date = h)

/-- The non-null values of covariate column `j` in a group of rows (pandas
mean skips NaN entries). -/
def covColumn (rs : List CleanRow) (j : ℕ) : List ℚ :=
  rs.filterMap (fun r => r.covs.getD j none)

/-- pandas group mean of covariate column `j`: NaN (none) when the column
has no non-null value in the group, else the mean of the present
values. -/
def covMean (rs : List CleanRow) (j : ℕ) : Option ℚ :=
  let vs := covColumn rs j
  if vs.isEmpty then none else some (listMean vs)

/-- The aggregated bucket of hour `h`: the resample index value `h * 60`
as the date, the mean output of the hour, and the mean of each of the `nc`
covariate columns. -/
def mkBucket (rs : List CleanRow) (nc : ℕ) (h : ℕ) : Bucket :=
  ⟨h * 60, listMean ((rowsInHour rs h).map (fun r => r.output)),
    (List.range nc).map (fun j => covMean (rowsInHour rs h) j)⟩

/-- `df.set_index("date").resample("1H").mean()` restricted to the hours
that contain at least one row (the empty hours produce all-NaN rows that
the following dropna removes in every code variant). -/
def resampleHourly (rs : List CleanRow) (nc : ℕ) : List Bucket :=
  (hourKeys rs).map (mkBucket rs nc)

/-- The `.dropna()` chained right after the resample (src/tester.py line
192, part_000 lines 28 and 61): a bucket is kept only when none of its
aggregated columns is NaN.  The output mean of a nonempty hour is never
NaN, so only covariate columns can trigger removal here. -/
def dropnaBuckets (bs : List Bucket) : List Bucket :=
  bs.filter (fun b => b.covs.all (fun c => c.isSome))

/-- The full alignment stage: cleaning, hourly resampling with per-column
means, and the post-resample dropna.  `nc` is the number of covariate
columns of the input table. -/
def align (rows : List RawRow) (nc : ℕ) : List Bucket :=
  dropnaBuckets (resampleHourly (cleanRows rows) nc)

/-- The hour-level timestamp strings the summary lists
(src/tester.py lines 65-66): the strftime("%Y-%m-%d %H:%M") rendering of
the date of every bucket flagged anomalous, in sequence order, without any
de-duplication. -/
def anomalyStamps (L : List (Bucket × Bool)) : List String :=
  (L.filter (fun p => p.2)).map (fun p => fmtDateHM p.1.date)

/-- Python banker's rounding of a rational to the nearest integer (ties go
to the even neighbour), the semantics of the built-in round. -/
def roundHalfEven (q : ℚ) : ℤ :=
  let f := ⌊q⌋
  let r := q - (f : ℚ)
  if r < 1 / 2 then f
  else if 1 / 2 < r then f + 1
  else if f % 2 = 0 then f else f + 1

/-- `round(x, 2)` of src/tester.py line 76: banker's rounding at two
decimal places. -/
def pyRound2 (q : ℚ) : ℚ := ((roundHalfEven (q * 100) : ℚ)) / 100

/-- `round(x, 2)` lifted to IEEE values: rounding a NaN or an infinity
returns it unchanged. -/
def pyRound2PF : PFloat → PFloat
  | .fin q => .fin (pyRound2 q)
  | v => v

/-- Rendering of an IEEE value inside the summary f-string.  Finite values
print through their rational rendering; this abstracts the decimal float
repr of Python, which no claim depends on. -/
def fmtPF : PFloat → String
  | .fin q => toString q
  | .inf => "inf"
  | .ninf => "-inf"
  | .nan => "nan"

/-- The anomalies display fragment of generate_summary (src/tester.py
lines 68-73): join the first five timestamp strings with a comma-and-space
separator; if more than five exist append an ellipsis with the count of
the remaining ones; if none exist use the explicit text "None
detected.". -/
def anomaliesDisplay (ds : List String) : String :=
  let shown := String.intercalate ", " (ds.take 5)
  if 5 < ds.length then shown ++ "... (" ++ toString (ds.length - 5) ++ " more)"
  else if ds.isEmpty then "None detected."
  else shown

/-- generate_summary (src/tester.py lines 63-78) applied to the labelled
hourly sequence: the f-string over the rounded average output, the
anomalies display fragment, and the peak output. -/
def generateSummary (L : List (Bucket × Bool)) : String :=
  let outs := L.map (fun p => p.1.output)
  "Avg output: " ++ fmtPF (pyRound2PF (pandasMean outs)) ++
    " kWh. Anomalies detected on: " ++ anomaliesDisplay (anomalyStamps L) ++
    ". Peak output: " ++ fmtPF (pandasMax outs) ++ " kWh."

/-- Modelled from the claim text of C5, for comparison with the code:
the de-duplicated calendar dates (not hours) of the anomalous buckets, in
sequence order.  The code (src/tester.py line 66) instead renders
hour-level timestamps and never de-duplicates. -/
def specAnomalyDates (L : List (Bucket × Bool)) : List String :=
  ((L.filter (fun p => p.2)).map (fun p => fmtDate p.1.date)).dedup

/-- Modelled from the claim text of C1, for comparison with the code: the
spec decision rule with the negated output, anomalous when
`abs ((-output - mean) / std) > threshold`. -/
def specZDecision (m s t x : ℚ) : Bool := decide (t < |(-x - m) / s|)

/-- The hourly dataframe as the upload route holds it: the bucket columns
(date, output_kwh, covariates) plus the `z_score` and `anomaly` columns,
which are absent (none) until some code writes them.  Explicit state
passing models the in-place column assignments of pandas. -/
structure HourlyFrame where
  buckets : List Bucket
  zscore : Option (List PFloat)
  anomaly : Option (List Bool)
deriving DecidableEq, Repr

/-- predict_anomalies as a state transformer on the caller's dataframe
(src/tester.py lines 47-61): under the `std == 0` guard it returns a fresh
all-False series and leaves the frame untouched; otherwise it assigns the
`z_score` and `anomaly` columns in place and returns the `anomaly`
column. -/
def predictAnomaliesDF (M : ZModel) (df : HourlyFrame) (t : ℚ) :
    HourlyFrame × List Bool :=
  if pfEq0 M.std then (df, df.buckets.map (fun _ => false))
  else
    let zs := df.buckets.map (fun b => zscoreOf M b.output)
    let fl := df.buckets.map (fun b => pfGtQ (pfAbs (zscoreOf M b.output)) t)
    ({ df with zscore := some zs, anomaly := some fl }, fl)

/-! ### Helper lemmas -/

lemma mem_insertKey {x h : ℕ} {l : List ℕ} :
    x ∈ insertKey h l ↔ x = h ∨ x ∈ l := by
  induction l with
  | nil => simp [insertKey]
  | cons a tl ih =>
    rw [insertKey]
    split
    · simp
    · simp only [List.mem_cons, ih]
      tauto

lemma sorted_insertKey {h : ℕ} {l : List ℕ}
    (hs : List.Pairwise (· ≤ ·) l) : List.Pairwise (· ≤ ·) (insertKey h l) := by
  induction l with
  | nil => simp [insertKey]
  | cons a tl ih =>
    rw [insertKey]
    rcases List.pairwise_cons.mp hs with ⟨ha, htl⟩
    split
    · refine List.pairwise_cons.mpr ⟨?_, hs⟩
      intro y hy
      rcases List.mem_cons.mp hy with rfl | hy
      · omega
      · have := ha y hy; omega
    · refine List.pairwise_cons.mpr ⟨?_, ih htl⟩
      intro y hy
      rcases mem_insertKey.mp hy with rfl | hy
      · omega
      · exact ha y hy

lemma nodup_insertKey {h : ℕ} {l : List ℕ} (hn : h ∉ l) (hl : l.Nodup) :
    (insertKey h l).Nodup := by
  induction l with
  | nil => simp [insertKey]
  | cons a tl ih =>
    rw [insertKey]
    rcases List.nodup_cons.mp hl with ⟨hna, htl⟩
    split
    · exact List.nodup_cons.mpr ⟨hn, hl⟩
    · refine List.nodup_cons.mpr ⟨?_, ih (fun hc => hn (List.mem_cons_of_mem a hc)) htl⟩
      intro hc
      rcases mem_insertKey.mp hc with rfl | hc
      · exact hn (List.mem_cons_self a tl)
      · exact hna hc

lemma mem_sortKeys {x : ℕ} {l : List ℕ} : x ∈ sortKeys l ↔ x ∈ l := by
  induction l with
  | nil => simp [sortKeys]
  | cons a tl ih =>
    rw [sortKeys]
    simp only [mem_insertKey, ih, List.mem_cons]

lemma sorted_sortKeys (l : List ℕ) : List.Pairwise (· ≤ ·) (sortKeys l) := by
  induction l with
  | nil => simp [sortKeys]
  | cons a tl ih => exact sorted_insertKey ih

lemma nodup_sortKeys {l : List ℕ} (hl : l.Nodup) : (sortKeys l).Nodup := by
  induction l with
  | nil => simp [sortKeys]
  | cons a tl ih =>
    rcases List.nodup_cons.mp hl with ⟨hna, htl⟩
    exact nodup_insertKey (fun hc => hna (mem_sortKeys.mp hc)) (ih htl)

lemma hourKeys_pairwise_lt (rs : List CleanRow) :
    List.Pairwise (· < ·) (hourKeys rs) := by
  have hle := sorted_sortKeys ((rs.map (fun r => hourOf r.date)).dedup)
  have hnd : (hourKeys rs).Nodup := nodup_sortKeys (List.nodup_dedup _)
  have := List.Pairwise.and hle hnd
  exact this.imp (fun hab => lt_of_le_of_ne hab.1 hab.2)

lemma mem_hourKeys {h : ℕ} {rs : List CleanRow} :
    h ∈ hourKeys rs ↔ h ∈ rs.map (fun r => hourOf r.date) := by
  rw [hourKeys, mem_sortKeys, List.mem_dedup]

lemma listMean_const (c : ℚ) (l : List ℚ) (hne : l ≠ []) (h : ∀ x ∈ l, x = c) :
    listMean l = c := by
  have hsum : l.sum = l.length • c := List.sum_eq_card_nsmul l c h
  have hlen : (l.length : ℚ) ≠ 0 := by
    have := List.length_pos.mpr hne
    positivity
  rw [listMean, hsum, nsmul_eq_mul, mul_comm, mul_div_assoc, div_self hlen, mul_one]

lemma sampleVar_const (c : ℚ) (l : List ℚ) (hne : l ≠ []) (h : ∀ x ∈ l, x = c) :
    sampleVar l = 0 := by
  have hm : listMean l = c := listMean_const c l hne h
  have hz : (l.map (fun x => (x - listMean l) ^ 2)).sum = 0 := by
    have : ∀ y ∈ l.map (fun x => (x - listMean l) ^ 2), y = 0 := by
      intro y hy
      rcases List.mem_map.mp hy with ⟨x, hx, rfl⟩
      rw [hm, h x hx, sub_self]
      ring
    simpa using List.sum_eq_card_nsmul _ 0 this
  rw [sampleVar, hz, zero_div]

lemma sumSq_all_zero (c : ℚ) (l : List ℚ)
    (h : (l.map (fun x => (x - c) ^ 2)).sum = 0) : ∀ x ∈ l, x = c := by
  induction l with
  | nil => intro x hx; cases hx
  | cons a tl ih =>
    have hnn : 0 ≤ (tl.map (fun x => (x - c) ^ 2)).sum := by
      apply List.sum_nonneg
      intro y hy
      rcases List.mem_map.mp hy with ⟨x, _, rfl⟩
      positivity
    have hha : (0 : ℚ) ≤ (a - c) ^ 2 := by positivity
    simp only [List.map_cons, List.sum_cons] at h
    have h1 : (a - c) ^ 2 = 0 := le_antisymm (by linarith) hha
    have h2 : (tl.map (fun x => (x - c) ^ 2)).sum = 0 :=
      le_antisymm (by linarith) hnn
    intro x hx
    rcases List.mem_cons.mp hx with rfl | hx
    · have := pow_eq_zero_iff (n := 2) (by norm_num) |>.mp h1
      linarith [sub_eq_zero.mp this]
    · exact ih h2 x hx

lemma sampleVar_zero_all_mean (l : List ℚ) (hlen : 2 ≤ l.length)
    (h : sampleVar l = 0) : ∀ x ∈ l, x = listMean l := by
  have hd : ((l.length : ℚ) - 1) ≠ 0 := by
    have : (2 : ℚ) ≤ (l.length : ℚ) := by exact_mod_cast hlen
    linarith
  rw [sampleVar, div_eq_zero_iff] at h
  rcases h with h | h
  · exact sumSq_all_zero _ _ h
  · exact absurd h hd

/-- Unfolding of `IsPandasStd` for columns with at least two rows. -/
lemma isPandasStd_of_two_le {xs : List ℚ} {s : PFloat} (hlen : 2 ≤ xs.length)
    (h : IsPandasStd xs s) : ∃ q : ℚ, s = .fin q ∧ 0 ≤ q ∧ q ^ 2 = sampleVar xs := by
  rw [IsPandasStd, if_neg (by omega)] at h
  exact h

/-- A trained model on an all-equal column of length at least two has mean
`fin c` and std `fin 0`. -/
lemma trained_const_model {xs : List ℚ} {M : ZModel} {c : ℚ}
    (hM : IsTrainedModel xs M) (hlen : 2 ≤ xs.length) (hc : ∀ x ∈ xs, x = c) :
    M.mean = .fin c ∧ M.std = .fin 0 := by
  have hne : xs ≠ [] := by
    intro h; rw [h] at hlen; simp at hlen
  have hvar : sampleVar xs = 0 := sampleVar_const c xs hne hc
  rcases isPandasStd_of_two_le hlen hM.2 with ⟨q, hq, hq0, hqsq⟩
  have hqz : q = 0 := by
    have : q ^ 2 = 0 := by rw [hqsq, hvar]
    exact pow_eq_zero_iff (n := 2) (by norm_num) |>.mp this
  constructor
  · rw [hM.1, pandasMean, if_neg (by simpa using hne), listMean_const c xs hne hc]
  · rw [hq, hqz]

/-- On a nonempty column the trained mean is the finite arithmetic mean. -/
lemma trained_mean_fin {xs : List ℚ} {M : ZModel} (hM : IsTrainedModel xs M)
    (hne : xs ≠ []) : M.mean = .fin (listMean xs) := by
  rw [hM.1, pandasMean, if_neg (by simpa using hne)]

/-! ### Claim theorems -/

/-- Claim C1, counterexample.  The claim states the zscore anomaly
decision is `abs ((-output - mean) / std) > threshold`.  On the hourly
outputs 9, 10, 11 the fitted model has mean 10 and std 1; the code labels
every bucket not-anomalous at the default threshold, yet the formula of
the claim evaluates to true on the bucket with output 9 (its value is 19),
so the claim, as stated, is false on this input. -/
theorem c1_spec_sign_counterexample :
    IsTrainedModel [9, 10, 11] ⟨.fin 10, .fin 1⟩ ∧
    predictAnomalies ⟨.fin 10, .fin 1⟩ [9, 10, 11] defaultThreshold
      = [false, false, false] ∧
    specZDecision 10 1 defaultThreshold 9 = true := by
  refine ⟨⟨by norm_num [pandasMean, listMean], ?_⟩, ?_, ?_⟩
  · unfold IsPandasStd
    rw [if_neg (by norm_num)]
    exact ⟨1, rfl, by norm_num, by norm_num [sampleVar, listMean]⟩
  · norm_num [predictAnomalies, pfEq0, zscoreOf, pfSub, pfDiv, pfAbs, pfGtQ,
      defaultThreshold]
  · norm_num [specZDecision, defaultThreshold]

/-- Claim C1 (corrected): for the zscore strategy the fitted model's
parameters are exactly the mean and the sample standard deviation of the
hourly outputs, and for every hourly bucket the anomaly decision is
`abs ((output - mean) / std) > threshold` (the spec had `-output`; the
code of predict_anomalies, src/tester.py lines 47-61, uses `output`),
whenever the hourly outputs are at least two and not all identical. -/
theorem c1_zscore_params_and_decision (xs : List ℚ) (M : ZModel)
    (hlen : 2 ≤ xs.length) (hvar : sampleVar xs ≠ 0)
    (hM : IsTrainedModel xs M) :
    M.mean = .fin (listMean xs) ∧
    ∃ s : ℚ, M.std = .fin s ∧ 0 ≤ s ∧ s ^ 2 = sampleVar xs ∧
      ∀ t : ℚ, predictAnomalies M xs t =
        xs.map (fun x => decide (t < |(x - listMean xs) / s|)) := by
  have hne : xs ≠ [] := by
    intro h; rw [h] at hlen; simp at hlen
  have hmean : M.mean = .fin (listMean xs) := trained_mean_fin hM hne
  rcases isPandasStd_of_two_le hlen hM.2 with ⟨s, hs, hs0, hssq⟩
  have hsne : s ≠ 0 := by
    intro h
    apply hvar
    rw [← hssq, h]
    ring
  refine ⟨hmean, s, hs, hs0, hssq, ?_⟩
  intro t
  rw [predictAnomalies, hs]
  rw [if_neg (by simp [pfEq0, hsne])]
  apply List.map_congr_left
  intro x _
  simp [zscoreOf, hmean, hs, pfSub, pfDiv, hsne, pfAbs, pfGtQ]

/-- Witness for the corrected C1 at the concrete dataset 9, 10, 11, whose
fitted model is mean 10 and std 1. -/
theorem c1_zscore_params_and_decision_witness :
    (2 ≤ ([9, 10, 11] : List ℚ).length) ∧ sampleVar [9, 10, 11] ≠ 0 ∧
    IsTrainedModel [9, 10, 11] ⟨.fin 10, .fin 1⟩ ∧
    predictAnomalies ⟨.fin 10, .fin 1⟩ [9, 10, 11] 3 = [false, false, false] := by
  have hM : IsTrainedModel [9, 10, 11] (⟨.fin 10, .fin 1⟩ : ZModel) := by
    refine ⟨by norm_num [pandasMean, listMean], ?_⟩
    unfold IsPandasStd
    rw [if_neg (by norm_num)]
    exact ⟨1, rfl, by norm_num, by norm_num [sampleVar, listMean]⟩
  have hlen : 2 ≤ ([9, 10, 11] : List ℚ).length := by norm_num
  have hvar : sampleVar [9, 10, 11] ≠ 0 := by norm_num [sampleVar, listMean]
  obtain ⟨hmean, s, hs, hs0, hssq, hpred⟩ :=
    c1_zscore_params_and_decision [9, 10, 11] ⟨.fin 10, .fin 1⟩ hlen hvar hM
  have hs1 : s = 1 := by
    have : PFloat.fin 1 = .fin s := hs
    exact (PFloat.fin.injEq 1 s ▸ this).symm
  subst hs1
  refine ⟨hlen, hvar, hM, ?_⟩
  rw [hpred 3]
  norm_num [listMean]

/-- Claim C2 (confirmed): for the zscore strategy the per-bucket score is
the signed z-score `(output - mean) / std` from the fit-time parameters
(src/tester.py lines 58 and 210), and `is_anomalous` holds exactly when
the absolute score strictly exceeds the threshold; in the degenerate cases
(std zero or NaN parameters) the stored score is NaN and the IEEE
comparison is false, matching the all-false labels the guard returns. -/
theorem c2_signed_zscore_flags (xs : List ℚ) (M : ZModel) (t : ℚ)
    (hM : IsTrainedModel xs M) :
    predictAnomalies M xs t = xs.map (fun x => pfGtQ (pfAbs (zscoreOf M x)) t) ∧
    ∀ m s : ℚ, M.mean = .fin m → M.std = .fin s → s ≠ 0 →
      ∀ x : ℚ, zscoreOf M x = .fin ((x - m) / s) := by
  constructor
  · rw [predictAnomalies]
    by_cases hg : pfEq0 M.std = true
    · rw [if_pos hg]
      cases hstd : M.std with
      | fin a =>
        rw [hstd] at hg
        have ha : a = 0 := by simpa [pfEq0] using hg
        subst ha
        have h2 := hM.2
        rw [IsPandasStd] at h2
        by_cases hl : xs.length < 2
        · rw [if_pos hl, hstd] at h2
          cases h2
        · rw [if_neg hl] at h2
          rcases h2 with ⟨q, hq, hq0, hqsq⟩
          rw [hstd] at hq
          have hq0' : q = 0 := ((PFloat.fin.injEq 0 q).mp hq).symm
          have hlen2 : 2 ≤ xs.length := by omega
          have hvz : sampleVar xs = 0 := by rw [← hqsq, hq0']; ring
          have hall := sampleVar_zero_all_mean xs hlen2 hvz
          have hne : xs ≠ [] := by
            intro h; rw [h] at hlen2; simp at hlen2
          have hmean : M.mean = .fin (listMean xs) := trained_mean_fin hM hne
          symm
          apply List.map_congr_left
          intro x hx
          have hx' : x = listMean xs := hall x hx
          simp [zscoreOf, hmean, hstd, pfSub, hx', pfDiv, pfAbs, pfGtQ]
      | inf => rw [hstd] at hg; simp [pfEq0] at hg
      | ninf => rw [hstd] at hg; simp [pfEq0] at hg
      | nan => rw [hstd] at hg; simp [pfEq0] at hg
    · rw [if_neg hg]
  · intro m s hm hs hsne x
    simp [zscoreOf, hm, hs, pfSub, pfDiv, hsne]

/-- Witness for C2 at the dataset 0, 2, 4 (fitted mean 2, std 2) with
threshold one half: the outer buckets are anomalous, the middle one is
not, and the stored score of the first bucket is the signed value -1. -/
theorem c2_signed_zscore_flags_witness :
    IsTrainedModel [0, 2, 4] ⟨.fin 2, .fin 2⟩ ∧
    predictAnomalies ⟨.fin 2, .fin 2⟩ [0, 2, 4] (1 / 2) = [true, false, true] ∧
    zscoreOf ⟨.fin 2, .fin 2⟩ 0 = .fin (-1) := by
  have hM : IsTrainedModel [0, 2, 4] (⟨.fin 2, .fin 2⟩ : ZModel) := by
    refine ⟨by norm_num [pandasMean, listMean], ?_⟩
    unfold IsPandasStd
    rw [if_neg (by norm_num)]
    exact ⟨2, rfl, by norm_num, by norm_num [sampleVar, listMean]⟩
  have h := c2_signed_zscore_flags [0, 2, 4] ⟨.fin 2, .fin 2⟩ (1 / 2) hM
  refine ⟨hM, ?_, ?_⟩
  · rw [h.1]
    norm_num [zscoreOf, pfSub, pfDiv, pfAbs, pfGtQ]
  · rw [h.2 2 2 rfl rfl (by norm_num) 0]
    norm_num

/-- Claim C3, counterexample.  The claim states that fitting on an empty
bucket sequence raises a ValidationError rather than returning a model.
The zscore train_model (src/tester.py lines 37-45) has no error path at
all: on an empty frame pandas mean and std return NaN and a model
dictionary with NaN parameters is returned, which then predicts without
raising. -/
theorem c3_empty_fit_counterexample :
    IsTrainedModel [] ⟨.nan, .nan⟩ ∧
    predictAnomalies ⟨.nan, .nan⟩ [1, 2, 3] defaultThreshold
      = [false, false, false] := by
  refine ⟨⟨rfl, by simp [IsPandasStd]⟩, ?_⟩
  norm_num [predictAnomalies, pfEq0, zscoreOf, pfSub, pfDiv, pfAbs, pfGtQ]

/-- Claim C3 (corrected): fitting the zscore model on an empty bucket
sequence does not raise; it returns the model with NaN mean and NaN std
(the pandas aggregates of an empty column), and that model labels every
bucket of any subsequent input not-anomalous.  The repository defines no
ValidationError; for the ensemble strategy the empty-input failure is a
ValueError raised inside the sklearn library, outside this repository. -/
theorem c3_empty_fit_returns_nan_model (M : ZModel)
    (hM : IsTrainedModel [] M) :
    M = ⟨.nan, .nan⟩ ∧
    ∀ (xs : List ℚ) (t : ℚ), predictAnomalies M xs t = xs.map (fun _ => false) := by
  have hmean : M.mean = .nan := by simpa [pandasMean] using hM.1
  have hstd : M.std = .nan := by
    have h2 := hM.2
    rw [IsPandasStd, if_pos (by norm_num)] at h2
    exact h2
  have hMe : M = ⟨.nan, .nan⟩ := by
    cases M
    simp_all
  refine ⟨hMe, ?_⟩
  intro xs t
  rw [hMe, predictAnomalies]
  rw [if_neg (by simp [pfEq0])]
  apply List.map_congr_left
  intro x _
  simp [zscoreOf, pfSub, pfDiv, pfAbs, pfGtQ]

/-- Witness for the corrected C3: the NaN-parameter model fit on the
empty sequence predicts not-anomalous on a concrete bucket. -/
theorem c3_empty_fit_returns_nan_model_witness :
    IsTrainedModel [] ⟨.nan, .nan⟩ ∧
    predictAnomalies ⟨.nan, .nan⟩ [5] 2 = [false] := by
  have hM : IsTrainedModel [] (⟨.nan, .nan⟩ : ZModel) :=
    ⟨rfl, by simp [IsPandasStd]⟩
  refine ⟨hM, ?_⟩
  rw [(c3_empty_fit_returns_nan_model ⟨.nan, .nan⟩ hM).2 [5] 2]
  rfl

/-- Claim C4 (confirmed): when every hourly output has the same value the
sample standard deviation is zero, the `std == 0` guard of
predict_anomalies (src/tester.py lines 55-56) fires, and every bucket is
labelled not-anomalous for every threshold value, with no error raised. -/
theorem c4_zero_variance_guard (xs : List ℚ) (M : ZModel) (t c : ℚ)
    (hM : IsTrainedModel xs M) (hlen : 2 ≤ xs.length)
    (hc : ∀ x ∈ xs, x = c) :
    predictAnomalies M xs t = xs.map (fun _ => false) := by
  have hstd := (trained_const_model hM hlen hc).2
  rw [predictAnomalies, hstd]
  rw [if_pos (by simp [pfEq0])]

/-- Witness for C4 at the constant dataset 5, 5 and the (even negative)
threshold -1. -/
theorem c4_zero_variance_guard_witness :
    IsTrainedModel [5, 5] ⟨.fin 5, .fin 0⟩ ∧
    predictAnomalies ⟨.fin 5, .fin 0⟩ [5, 5] (-1) = [false, false] := by
  have hM : IsTrainedModel [5, 5] (⟨.fin 5, .fin 0⟩ : ZModel) := by
    refine ⟨by norm_num [pandasMean, listMean], ?_⟩
    unfold IsPandasStd
    rw [if_neg (by norm_num)]
    exact ⟨0, rfl, le_rfl, by norm_num [sampleVar, listMean]⟩
  refine ⟨hM, ?_⟩
  rw [c4_zero_variance_guard [5, 5] ⟨.fin 5, .fin 0⟩ (-1) 5 hM (by norm_num)
    (by norm_num)]
  rfl

/-- Claim C10 (confirmed): on a zero-variance dataset the upload route
still stores a per-bucket z-score by dividing `output - mean` by the zero
std (src/tester.py line 210); every stored score is the IEEE NaN, a
non-finite value, while every anomaly flag is false — the guard protects
only the flags, not the stored scores. -/
theorem c10_zero_variance_scores_nonfinite (xs : List ℚ) (M : ZModel)
    (c : ℚ) (hM : IsTrainedModel xs M) (hlen : 2 ≤ xs.length)
    (hc : ∀ x ∈ xs, x = c) :
    M.std = .fin 0 ∧
    storedScores M xs = xs.map (fun _ => .nan) ∧
    (∀ v ∈ storedScores M xs, v.isFinite = false) ∧
    predictAnomalies M xs defaultThreshold = xs.map (fun _ => false) := by
  obtain ⟨hmean, hstd⟩ := trained_const_model hM hlen hc
  have hscores : storedScores M xs = xs.map (fun _ => .nan) := by
    rw [storedScores]
    apply List.map_congr_left
    intro x hx
    simp [zscoreOf, hmean, hstd, pfSub, hc x hx, pfDiv]
  refine ⟨hstd, hscores, ?_, ?_⟩
  · intro v hv
    rw [hscores] at hv
    rcases List.mem_map.mp hv with ⟨x, _, rfl⟩
    rfl
  · rw [predictAnomalies, hstd]
    rw [if_pos (by simp [pfEq0])]

/-- Witness for C10 at the constant dataset 7, 7: the stored scores are
both NaN and non-finite while both flags are false. -/
theorem c10_zero_variance_scores_nonfinite_witness :
    IsTrainedModel [7, 7] ⟨.fin 7, .fin 0⟩ ∧
    storedScores ⟨.fin 7, .fin 0⟩ [7, 7] = [.nan, .nan] ∧
    predictAnomalies ⟨.fin 7, .fin 0⟩ [7, 7] defaultThreshold
      = [false, false] := by
  have hM : IsTrainedModel [7, 7] (⟨.fin 7, .fin 0⟩ : ZModel) := by
    refine ⟨by norm_num [pandasMean, listMean], ?_⟩
    unfold IsPandasStd
    rw [if_neg (by norm_num)]
    exact ⟨0, rfl, le_rfl, by norm_num [sampleVar, listMean]⟩
  obtain ⟨-, hscores, -, hpred⟩ :=
    c10_zero_variance_scores_nonfinite [7, 7] ⟨.fin 7, .fin 0⟩ 7 hM
      (by norm_num) (by norm_num)
  exact ⟨hM, by rw [hscores]; rfl, by rw [hpred]; rfl⟩

/-- Claim C5, counterexample.  The claim states the narrative lists the
de-duplicated calendar dates of the anomalous buckets.  With two anomalous
buckets in the same calendar day (hours 14 and 16 of day 0) the code
renders two hour-level entries, while the claim's construction yields the
single date, so the displayed fragment differs from the claimed one. -/
theorem c5_narrative_counterexample :
    anomalyStamps [(⟨14 * 60, 100, []⟩, true), (⟨16 * 60, 100, []⟩, true)]
      = ["0 14:0", "0 16:0"] ∧
    specAnomalyDates [(⟨14 * 60, 100, []⟩, true), (⟨16 * 60, 100, []⟩, true)]
      = ["0"] ∧
    anomaliesDisplay
        (anomalyStamps [(⟨14 * 60, 100, []⟩, true), (⟨16 * 60, 100, []⟩, true)])
      ≠ String.intercalate ", "
        (specAnomalyDates
          [(⟨14 * 60, 100, []⟩, true), (⟨16 * 60, 100, []⟩, true)]) := by
  refine ⟨rfl, rfl, ?_⟩
  decide

/-- Claim C5 (corrected): the narrative lists the "%Y-%m-%d %H:%M"
hour-level timestamps of the anomalous buckets in sequence order, without
de-duplication to calendar dates, capped at the hardcoded count five (no
max_dates_shown parameter exists); at most the first five are joined with
a comma-and-space separator; when more than five exist the string appends
an ellipsis with the count of the remaining ones; when none exist the
display is the explicit text "None detected.". -/
theorem c5_narrative_hour_stamps (L : List (Bucket × Bool)) :
    generateSummary L =
      "Avg output: " ++ fmtPF (pyRound2PF (pandasMean (L.map (fun p => p.1.output)))) ++
        " kWh. Anomalies detected on: " ++ anomaliesDisplay (anomalyStamps L) ++
        ". Peak output: " ++ fmtPF (pandasMax (L.map (fun p => p.1.output))) ++
        " kWh." ∧
    (anomalyStamps L = [] → anomaliesDisplay (anomalyStamps L) = "None detected.") ∧
    (anomalyStamps L ≠ [] → (anomalyStamps L).length ≤ 5 →
      anomaliesDisplay (anomalyStamps L) =
        String.intercalate ", " (anomalyStamps L)) ∧
    (5 < (anomalyStamps L).length →
      anomaliesDisplay (anomalyStamps L) =
        String.intercalate ", " ((anomalyStamps L).take 5) ++ "... (" ++
          toString ((anomalyStamps L).length - 5) ++ " more)") := by
  refine ⟨rfl, ?_, ?_, ?_⟩
  · intro h
    rw [h]
    rfl
  · intro hne hle
    simp only [anomaliesDisplay]
    rw [if_neg (by omega), if_neg (by simpa using hne)]
    rw [List.take_of_length_le hle]
  · intro h5
    simp only [anomaliesDisplay]
    rw [if_pos h5]

/-- Witness for the corrected C5: on the empty labelled sequence the
summary states explicitly that none were detected (and the statistics
render the pandas NaN aggregates). -/
theorem c5_narrative_hour_stamps_witness :
    anomalyStamps ([] : List (Bucket × Bool)) = [] ∧
    generateSummary [] =
      "Avg output: nan kWh. Anomalies detected on: None detected.. Peak output: nan kWh." := by
  have h := c5_narrative_hour_stamps []
  refine ⟨rfl, ?_⟩
  rw [h.1, h.2.1 rfl]
  rfl

lemma cleanRows_eq_filterMap (rows : List RawRow) :
    cleanRows rows = rows.filterMap parseRow := by
  induction rows with
  | nil => rfl
  | cons r tl ih =>
    rw [cleanRows, dropNullRows] at ih ⊢
    rw [List.filter_cons, List.filterMap_cons]
    cases hts : r.ts <;> cases hout : r.output <;>
      simp [parseRow, hts, hout, ih]

lemma filterMap_parseRow_count (rows : List RawRow) :
    (rows.filter (fun r => !rowValid r)).length +
      (rows.filterMap parseRow).length = rows.length := by
  simp only [rowValid]
  induction rows with
  | nil => rfl
  | cons r tl ih =>
    rw [List.filter_cons, List.filterMap_cons]
    cases hv : parseRow r with
    | none =>
      simp only [Option.isSome_none, Bool.not_false, if_pos, List.length_cons]
      omega
    | some c =>
      simp only [Option.isSome_some, Bool.not_true, Bool.false_eq_true,
        if_false, List.length_cons]
      omega

lemma filterMap_parseRow_filter_valid (rows : List RawRow) :
    (rows.filter (fun r => rowValid r)).filterMap parseRow
      = rows.filterMap parseRow := by
  simp only [rowValid]
  induction rows with
  | nil => rfl
  | cons r tl ih =>
    rw [List.filter_cons]
    cases hv : parseRow r with
    | none =>
      rw [if_neg (by simp [hv]), List.filterMap_cons, hv, ih]
    | some c =>
      rw [if_pos (by simp [hv]), List.filterMap_cons, List.filterMap_cons, hv]
      simp [ih]

/-- Claim C6 (confirmed): the cleaning steps (src/tester.py lines 185-189)
drop exactly the rows with a null output or a null or unparsable
timestamp: the dropped count plus the retained count equals the input
count, and removing the invalid rows from the input leaves the aligned
hourly buckets unchanged, so a dropped reading never contributes to any
bucket. -/
theorem c6_cleaning_row_drop (rows : List RawRow) (nc : ℕ) :
    (rows.filter (fun r => !rowValid r)).length + (cleanRows rows).length
      = rows.length ∧
    align rows nc = align (rows.filter (fun r => rowValid r)) nc := by
  constructor
  · rw [cleanRows_eq_filterMap]
    exact filterMap_parseRow_count rows
  · have h : cleanRows (rows.filter (fun r => rowValid r)) = cleanRows rows := by
      rw [cleanRows_eq_filterMap, cleanRows_eq_filterMap,
        filterMap_parseRow_filter_valid]
    unfold align
    rw [h]

/-- Claim C7 (confirmed): the aligned bucket sequence is strictly
increasing in its hour-start dates (hence free of duplicate hours), and
every bucket aggregates a nonempty group of cleaned readings, so no bucket
carries a null output. -/
theorem c7_align_sorted_no_null (rows : List RawRow) (nc : ℕ) :
    List.Pairwise (· < ·) ((align rows nc).map (fun b => b.date)) ∧
    ∀ b ∈ align rows nc, ∃ h : ℕ, h ∈ hourKeys (cleanRows rows) ∧
      b = mkBucket (cleanRows rows) nc h ∧
      rowsInHour (cleanRows rows) h ≠ [] := by
  constructor
  · unfold align dropnaBuckets resampleHourly
    rw [List.pairwise_map]
    have hs := hourKeys_pairwise_lt (cleanRows rows)
    have hp : List.Pairwise (fun a b : Bucket => a.date < b.date)
        ((hourKeys (cleanRows rows)).map (mkBucket (cleanRows rows) nc)) := by
      rw [List.pairwise_map]
      exact hs.imp (fun hab => by simp only [mkBucket]; omega)
    exact hp.sublist (List.filter_sublist _)
  · intro b hb
    unfold align dropnaBuckets resampleHourly at hb
    have hb' := List.mem_of_mem_filter hb
    rcases List.mem_map.mp hb' with ⟨h, hh, rfl⟩
    refine ⟨h, hh, rfl, ?_⟩
    rcases List.mem_map.mp (mem_hourKeys.mp hh) with ⟨r, hr, hr2⟩
    intro hemp
    have hrg : r ∈ rowsInHour (cleanRows rows) h := by
      rw [rowsInHour, List.mem_filter]
      exact ⟨hr, by simp [hr2]⟩
    rw [hemp] at hrg
    cases hrg

/-- Witness for C7: on two readings in hours 0 and 2 the aligned dates
are exactly the strictly increasing list 0, 120, and the first bucket
comes from a nonempty hour group. -/
theorem c7_align_sorted_no_null_witness :
    (align [⟨.ok 10, some 5, []⟩, ⟨.ok 130, some 7, []⟩] 0).map (fun b => b.date)
      = [0, 120] ∧
    List.Pairwise (· < ·)
      ((align [⟨.ok 10, some 5, []⟩, ⟨.ok 130, some 7, []⟩] 0).map
        (fun b => b.date)) ∧
    ∃ h : ℕ,
      h ∈ hourKeys (cleanRows [⟨.ok 10, some 5, []⟩, ⟨.ok 130, some 7, []⟩]) ∧
      mkBucket (cleanRows [⟨.ok 10, some 5, []⟩, ⟨.ok 130, some 7, []⟩]) 0 0
        = mkBucket (cleanRows [⟨.ok 10, some 5, []⟩, ⟨.ok 130, some 7, []⟩]) 0 h ∧
      rowsInHour (cleanRows [⟨.ok 10, some 5, []⟩, ⟨.ok 130, some 7, []⟩]) h
        ≠ [] := by
  have h := c7_align_sorted_no_null [⟨.ok 10, some 5, []⟩, ⟨.ok 130, some 7, []⟩] 0
  refine ⟨by decide, h.1, ?_⟩
  have hmem : mkBucket (cleanRows [⟨.ok 10, some 5, []⟩, ⟨.ok 130, some 7, []⟩]) 0 0
      ∈ align [⟨.ok 10, some 5, []⟩, ⟨.ok 130, some 7, []⟩] 0 := by
    unfold align dropnaBuckets resampleHourly
    rw [List.mem_filter]
    refine ⟨List.mem_map_of_mem _ (by decide), by decide⟩
  exact h.2 _ hmem

lemma covMean_isSome_iff (rs : List CleanRow) (j : ℕ) :
    (covMean rs j).isSome = true ↔ covColumn rs j ≠ [] := by
  simp only [covMean]
  split
  · next hcond =>
    simp only [Option.isSome_none, Bool.false_eq_true, false_iff, ne_eq,
      not_not]
    exact List.isEmpty_iff.mp hcond
  · next hcond =>
    simp only [Option.isSome_some, true_iff, ne_eq]
    intro hc
    exact hcond (by simp [hc])

/-- Claim C9 (confirmed): an hour key survives into the aligned output
exactly when it occurs in the cleaned data and every one of the `nc`
averaged covariate columns has at least one non-null value inside that
hour; in particular an hour with valid output readings is dropped whole by
the post-resample dropna whenever some covariate column is entirely
missing for that hour. -/
theorem c9_bucket_dropped_iff (rows : List RawRow) (nc h : ℕ) :
    (h * 60) ∈ (align rows nc).map (fun b => b.date) ↔
      (h ∈ hourKeys (cleanRows rows) ∧
        ∀ j < nc, covColumn (rowsInHour (cleanRows rows) h) j ≠ []) := by
  unfold align dropnaBuckets resampleHourly
  constructor
  · intro hmem
    rcases List.mem_map.mp hmem with ⟨b, hbf, hdate⟩
    rcases List.mem_filter.mp hbf with ⟨hbm, hp⟩
    rcases List.mem_map.mp hbm with ⟨k, hk, rfl⟩
    have hkh : k = h := by
      have : k * 60 = h * 60 := hdate
      omega
    subst hkh
    refine ⟨hk, ?_⟩
    intro j hj
    rw [← covMean_isSome_iff]
    have hall := List.all_eq_true.mp hp
    exact hall _ (List.mem_map_of_mem _ (List.mem_range.mpr hj))
  · rintro ⟨hk, hcov⟩
    apply List.mem_map.mpr
    refine ⟨mkBucket (cleanRows rows) nc h, ?_, rfl⟩
    rw [List.mem_filter]
    refine ⟨List.mem_map_of_mem _ hk, ?_⟩
    apply List.all_eq_true.mpr
    intro o ho
    rcases List.mem_map.mp ho with ⟨j, hj, rfl⟩
    exact (covMean_isSome_iff _ _).mpr (hcov j (List.mem_range.mp hj))

/-- Witness for C9: hour 0 holds a valid output reading but its only
covariate value is null, so its bucket is dropped, while hour 1 (whose
covariate is present) survives. -/
theorem c9_bucket_dropped_iff_witness :
    (0 : ℕ) ∈ hourKeys
      (cleanRows [⟨.ok 0, some 5, [none]⟩, ⟨.ok 70, some 6, [some 1]⟩]) ∧
    (0 * 60 : ℕ) ∉
      (align [⟨.ok 0, some 5, [none]⟩, ⟨.ok 70, some 6, [some 1]⟩] 1).map
        (fun b => b.date) ∧
    (1 * 60 : ℕ) ∈
      (align [⟨.ok 0, some 5, [none]⟩, ⟨.ok 70, some 6, [some 1]⟩] 1).map
        (fun b => b.date) := by
  refine ⟨by decide, ?_, ?_⟩
  · intro hmem
    have h := (c9_bucket_dropped_iff
      [⟨.ok 0, some 5, [none]⟩, ⟨.ok 70, some 6, [some 1]⟩] 1 0).mp hmem
    exact (h.2 0 (by norm_num)) (by decide)
  · exact (c9_bucket_dropped_iff
      [⟨.ok 0, some 5, [none]⟩, ⟨.ok 70, some 6, [some 1]⟩] 1 1).mpr
      ⟨by decide, by decide⟩

/-- Claim C8, counterexample.  The claim states no component mutates a
predecessor's output after hand-off.  predict_anomalies assigns the
`z_score` and `anomaly` columns into the caller's hourly dataframe in
place (src/tester.py lines 58-60), so the frame after labelling differs
from the frame that was handed in. -/
theorem c8_mutation_counterexample :
    (predictAnomaliesDF ⟨.fin 10, .fin 1⟩ ⟨[⟨0, 9, []⟩], none, none⟩ 3).1
      ≠ ⟨[⟨0, 9, []⟩], none, none⟩ := by
  intro h
  have := congrArg HourlyFrame.anomaly h
  simp [predictAnomaliesDF, pfEq0] at this

/-- Claim C8 (corrected): predict_anomalies does write the `z_score` and
`anomaly` columns into the hourly dataframe in place, but it leaves every
existing field (the bucket columns: dates, outputs, covariate means)
unchanged, and the per-bucket labels it returns as a separate series are
exactly the zscore decisions on the frame's outputs. -/
theorem c8_labeling_preserves_fields (M : ZModel) (df : HourlyFrame) (t : ℚ) :
    ((predictAnomaliesDF M df t).1).buckets = df.buckets ∧
    (predictAnomaliesDF M df t).2 =
      predictAnomalies M (df.buckets.map (fun b => b.output)) t := by
  rw [predictAnomaliesDF, predictAnomalies]
  by_cases hg : pfEq0 M.std = true
  · rw [if_pos hg, if_pos hg]
    refine ⟨rfl, ?_⟩
    rw [List.map_map]
    rfl
  · rw [if_neg hg, if_neg hg]
    refine ⟨rfl, ?_⟩
    rw [List.map_map]
    rfl

end RayField
